import Mathlib

/-!
Shallow embedding of `postman2jmx.py`, a converter from Postman collection
JSON documents to JMeter JMX (XML) documents, together with proofs about the
natural-language specification of the converter.

The embedding mirrors the Python source: `xml.etree.ElementTree` element
trees become the inductive `XElem`, Python dicts with optional fields become
structures with `Option` fields, and the stateful tree construction of
`process_request` / `process_items` / `add_user_defined_variables` /
`convert_postman_to_jmx` becomes pure functions returning the children the
Python code appends to its parent element.
-/

/-- An XML element as built by `xml.etree.ElementTree`: a tag, an ordered
attribute list, an optional text payload (Python distinguishes `None` from
`""`; both are modelled, `none` being Python `None`), and an ordered list of
child elements.  Tail text is never used by the converter and is omitted. -/
inductive XElem where
  | mk (tag : String) (attrs : List (String × String)) (text : Option String)
       (children : List XElem)

def XElem.tag : XElem → String
  | .mk t _ _ _ => t

def XElem.attrs : XElem → List (String × String)
  | .mk _ a _ _ => a

def XElem.text : XElem → Option String
  | .mk _ _ tx _ => tx

def XElem.children : XElem → List XElem
  | .mk _ _ _ cs => cs

/-- Attribute lookup on an element (first binding wins, as in ElementTree). -/
def lookupAttr (e : XElem) (k : String) : Option String :=
  List.lookup k e.attrs

/-- Python truthiness of an optional string (`None` and `""` are falsy). -/
def truthyStr : Option String → Bool
  | none => false
  | some s => !(s == "")

/-- Python truthiness of an optional list (`None` and `[]` are falsy). -/
def truthyList {α : Type} : Option (List α) → Bool
  | none => false
  | some l => !l.isEmpty

/-- A `{key, value}` entry as found in Postman `urlencoded`, `query` and
`header` sequences: a dict whose fields may each be absent. -/
structure KV where
  key : Option String
  value : Option String
deriving DecidableEq

/-- The `'key' in param and 'value' in param` presence test. -/
def KV.hasKeyValue (p : KV) : Bool :=
  p.key.isSome && p.value.isSome

/-- A Postman variable entry (collection `variable`, environment `values`,
URL `variable` sequences): `key`/`value` may be absent, and environment
entries carry an optional `enabled` flag.  Values are modelled by their
textual form (the source applies `str(...)` when emitting them). -/
structure Var where
  key : Option String
  value : Option String
  enabled : Option Bool
deriving DecidableEq

/-- The `'key' in var and 'value' in var` presence test. -/
def Var.hasKeyValue (v : Var) : Bool :=
  v.key.isSome && v.value.isSome

/-- A Postman request `body` dict: discriminant `mode`, the raw payload for
mode `"raw"`, and the parameter list for mode `"urlencoded"`. -/
structure Body where
  mode : Option String
  raw : Option String
  urlencoded : Option (List KV)
deriving DecidableEq

/-- A Postman structured URL path: a sequence of segments or a plain string
(the source tests `isinstance(path_parts, list)`). -/
inductive UrlPath where
  | segs (xs : List String)
  | str (s : String)
deriving DecidableEq

/-- A Postman structured URL `port` field: a string or a number (the source
applies `str(port)`). -/
inductive PortVal where
  | str (s : String)
  | num (n : Int)
deriving DecidableEq

/-- Python `str(...)` on a port value. -/
def PortVal.toStr : PortVal → String
  | .str s => s
  | .num n => toString n

/-- A Postman structured URL object.  The source field `variable` is spelled
`variableEntries` here because `variable` is reserved in Lean. -/
structure StructUrl where
  host : Option (List String)
  path : Option UrlPath
  protocol : Option String
  port : Option PortVal
  query : Option (List KV)
  variableEntries : Option (List Var)
deriving DecidableEq

/-- A Postman request URL: either a raw string or a structured object (the
source tests `isinstance(url_data, str)` / `isinstance(url_data, dict)`). -/
inductive UrlData where
  | str (s : String)
  | obj (u : StructUrl)
deriving DecidableEq

/-- A Postman request dict (the fields `process_request` reads). -/
structure Request where
  method : Option String
  header : Option (List KV)
  body : Option Body
  url : Option UrlData
deriving DecidableEq

/-- A Postman collection item: a folder (a dict with an `item` field, whose
other fields the source ignores) or a leaf (a dict without `item`, with an
optional `name` and an optional `request`). -/
inductive PMItem where
  | folder (children : List PMItem)
  | leaf (name : Option String) (request : Option Request)

/-- A Postman collection document (the fields `convert_postman_to_jmx`
reads): `info.name`, the `variable` sequence (spelled `varEntries` because
`variable` is reserved in Lean) and the `item` sequence. -/
structure Collection where
  infoName : Option String
  varEntries : Option (List Var)
  items : Option (List PMItem)

/-- A Postman environment document: its optional `values` sequence. -/
structure EnvDoc where
  values : Option (List Var)

/-! ### A model of the parts of `urllib.parse` the converter uses

`process_request` calls `urlparse` and `parse_qs` on string URLs.  The
functions below model `urlsplit`'s generic algorithm for URLs of the shape
`scheme://netloc/path?query#fragment` (IPv6 bracket syntax and invalid port
values, which make the Python `port` accessor raise, are outside the
modelled input domain), and `parse_qs` with its default arguments
(separator `&`, blank values dropped, `+` and `%XX` escapes decoded, where
escapes denote characters in the single-byte range). -/

/-- Split a character list at the first occurrence of `sep`; `none` when
`sep` does not occur.  The separator itself is dropped. -/
def splitAtFirst (sep : Char) : List Char → Option (List Char × List Char)
  | [] => none
  | c :: cs =>
    if c == sep then some ([], cs)
    else (splitAtFirst sep cs).map (fun p => (c :: p.1, p.2))

/-- Take characters until one of `stops` is hit; returns the prefix and the
remainder (remainder starts with the stop character when one was found). -/
def takeUntil (stops : List Char) : List Char → List Char × List Char
  | [] => ([], [])
  | c :: cs =>
    if stops.contains c then ([], c :: cs)
    else
      let r := takeUntil stops cs
      (c :: r.1, r.2)

/-- Split a character list on every occurrence of `sep`; models Python
`str.split(sep)` (kept on lists because Lean's `String.splitOn` does not
reduce inside the kernel). -/
def splitOnChar (sep : Char) : List Char → List (List Char)
  | [] => [[]]
  | c :: cs =>
    let r := splitOnChar sep cs
    if c == sep then [] :: r
    else
      match r with
      | h :: t => (c :: h) :: t
      | [] => [[c]]

/-- ASCII lowercasing of a character list (models `str.lower()` on the
ASCII hostnames and schemes in the modelled input domain). -/
def lowerChars (l : List Char) : String :=
  String.mk (l.map Char.toLower)

/-- The numeric value of a digit string (models `int(...)` on the digit
sequences accepted by `pyPort`; 48 is the code point of `0`). -/
def digitsToNat (l : List Char) : Nat :=
  l.foldl (fun n c => n * 10 + (c.toNat - 48)) 0

/-- The characters allowed in a URL scheme (`urllib.parse.scheme_chars`). -/
def isSchemeChar (c : Char) : Bool :=
  c.isAlphanum || c == '+' || c == '-' || c == '.'

/-- The result of `urllib.parse.urlsplit` (fragment merged away exactly as
`urlparse` does for URLs without path parameters). -/
structure ParsedUrl where
  scheme : String
  netloc : String
  path : String
  query : String
  fragment : String

/-- Model of `urllib.parse.urlparse` on the inputs described above: the
scheme is split off at the first `:` when the prefix is a wellformed scheme,
the netloc follows `//` up to the first `/`, `?` or `#`, the fragment is
everything after the first `#`, and the query sits between the first `?`
and the fragment. -/
def pyUrlparse (s : String) : ParsedUrl :=
  let cs := s.toList
  let schemeRest : String × List Char :=
    match splitAtFirst ':' cs with
    | some (pre, post) =>
      if !pre.isEmpty && (pre.headD ' ').isAlpha && pre.all isSchemeChar then
        (lowerChars pre, post)
      else ("", cs)
    | none => ("", cs)
  let netlocRest : List Char × List Char :=
    match schemeRest.2 with
    | '/' :: '/' :: rest => takeUntil ['/', '?', '#'] rest
    | other => ([], other)
  let beforeFragFrag : List Char × List Char :=
    match splitAtFirst '#' netlocRest.2 with
    | some (a, b) => (a, b)
    | none => (netlocRest.2, [])
  let pathQuery : List Char × List Char :=
    match splitAtFirst '?' beforeFragFrag.1 with
    | some (a, b) => (a, b)
    | none => (beforeFragFrag.1, [])
  { scheme := schemeRest.1
    netloc := String.mk netlocRest.1
    path := String.mk pathQuery.1
    query := String.mk pathQuery.2
    fragment := String.mk beforeFragFrag.2 }

/-- The part of a character list after its last occurrence of `sep` (the
whole list when `sep` does not occur); models `str.rpartition(sep)[2]`. -/
def afterLast (sep : Char) (l : List Char) : List Char :=
  match splitAtFirst sep l.reverse with
  | some (revAfter, _) => revAfter.reverse
  | none => l

/-- Model of `ParseResult.hostname`, composed with the source's `or ''`
fallback: the netloc after any userinfo and before any `:port`, lowercased
(`''` both for an absent and for an empty hostname). -/
def pyHostname (p : ParsedUrl) : String :=
  let hostinfo := afterLast '@' p.netloc.toList
  match splitAtFirst ':' hostinfo with
  | some (h, _) => lowerChars h
  | none => lowerChars hostinfo

/-- Model of `ParseResult.port` for in-range numeric ports: the digits after
the last `:` of the host info, `none` when no port is present. -/
def pyPort (p : ParsedUrl) : Option Nat :=
  let hostinfo := afterLast '@' p.netloc.toList
  match splitAtFirst ':' hostinfo with
  | some (_, digits) =>
    if !digits.isEmpty && digits.all Char.isDigit then
      some (digitsToNat digits)
    else none
  | none => none

/-- Hex digit value, for percent-escape decoding (code points written
numerically: 48-57 are the digits, 97-102 and 65-70 the hex letters). -/
def hexVal (c : Char) : Option Nat :=
  let n := c.toNat
  if 48 ≤ n && n ≤ 57 then some (n - 48)
  else if 97 ≤ n && n ≤ 102 then some (n - 87)
  else if 65 ≤ n && n ≤ 70 then some (n - 55)
  else none

/-- Model of `urllib.parse.unquote` for escapes in the single-byte range:
`%XX` with two hex digits becomes the character with code `XX`; a `%` not
followed by two hex digits is kept verbatim. -/
def pyUnquote : List Char → List Char
  | '%' :: a :: b :: rest =>
    match hexVal a, hexVal b with
    | some x, some y => Char.ofNat (16 * x + y) :: pyUnquote rest
    | _, _ => '%' :: pyUnquote (a :: b :: rest)
  | c :: rest => c :: pyUnquote rest
  | [] => []

/-- `+`-to-space substitution applied before unquoting (`parse_qsl`). -/
def plusToSpace (l : List Char) : List Char :=
  l.map (fun c => if c == '+' then ' ' else c)

/-- Model of `urllib.parse.parse_qsl` with default arguments: fields split
on `&`, empty fields skipped, each field split at its first `=`, fields
without `=` or with an empty value dropped, names and values decoded. -/
def parseQsl (qs : String) : List (String × String) :=
  (splitOnChar '&' qs.toList).filterMap (fun nv =>
    if nv.isEmpty then none
    else
      match splitAtFirst '=' nv with
      | none => none
      | some (n, v) =>
        if v.isEmpty then none
        else some (String.mk (pyUnquote (plusToSpace n)),
                   String.mk (pyUnquote (plusToSpace v))))

/-- Append a value under a key, preserving first-occurrence key order
(models insertion into the `parse_qs` result dict). -/
def insertQsPair (k v : String) : List (String × List String) → List (String × List String)
  | [] => [(k, [v])]
  | (k', vs) :: rest =>
    if k' == k then (k', vs ++ [v]) :: rest
    else (k', vs) :: insertQsPair k v rest

/-- Model of `urllib.parse.parse_qs`: the `parse_qsl` pairs grouped into a
key-ordered association list (Python dicts iterate in insertion order). -/
def parseQs (qs : String) : List (String × List String) :=
  (parseQsl qs).foldl (fun acc kv => insertQsPair kv.1 kv.2 acc) []

/-! ### Tree construction (`process_request`, `process_items`,
`add_user_defined_variables`, `convert_postman_to_jmx`)

Each function returns the list of elements the Python code appends to the
corresponding parent element; dict-literal attribute order is preserved. -/

/-- A `stringProp` leaf (`ET.SubElement(x, 'stringProp', name=nm)`, with
`text` left `None` or assigned afterwards). -/
def stringProp (nm : String) (v : Option String) : XElem :=
  .mk "stringProp" [("name", nm)] v []

/-- A `boolProp` leaf with its text. -/
def boolProp (nm v : String) : XElem :=
  .mk "boolProp" [("name", nm)] (some v) []

/-- An empty `hashTree` scope closer. -/
def hashTreeElem : XElem :=
  .mk "hashTree" [] none []

/-- The single unnamed argument emitted for a raw body
(`process_request`, raw branch). -/
def rawBodyArg (raw : String) : XElem :=
  .mk "elementProp" [("name", ""), ("elementType", "HTTPArgument")] none
    [boolProp "HTTPArgument.always_encode" "false",
     stringProp "Argument.value" (some raw),
     stringProp "Argument.metadata" (some "=")]

/-- One argument per `urlencoded` body entry
(`process_request`, urlencoded branch). -/
def urlencodedArg (param : KV) : XElem :=
  .mk "elementProp" [("name", param.key.getD ""), ("elementType", "HTTPArgument")] none
    [boolProp "HTTPArgument.always_encode" "false",
     stringProp "Argument.value" (some (param.value.getD "")),
     stringProp "Argument.metadata" (some "="),
     boolProp "HTTPArgument.use_equals" "true",
     stringProp "Argument.name" (some (param.key.getD ""))]

/-- One argument per query parameter; both the string-URL and the
structured-URL query branches emit exactly this shape, with
`always_encode` and `use_equals` forced to `true`. -/
def queryArg (k v : String) : XElem :=
  .mk "elementProp" [("name", k), ("elementType", "HTTPArgument")] none
    [boolProp "HTTPArgument.always_encode" "true",
     stringProp "Argument.value" (some v),
     stringProp "Argument.metadata" (some "="),
     boolProp "HTTPArgument.use_equals" "true",
     stringProp "Argument.name" (some k)]

/-- The `HTTPsampler.Arguments` element with its `Arguments.arguments`
collection holding `args` (all four places the source builds this
structure use these exact attributes). -/
def argsContainer (args : List XElem) : XElem :=
  .mk "elementProp"
    [("name", "HTTPsampler.Arguments"), ("elementType", "Arguments"),
     ("guiclass", "HTTPArgumentsPanel"), ("testclass", "Arguments"),
     ("enabled", "true")]
    none
    [.mk "collectionProp" [("name", "Arguments.arguments")] none args]

/-- The elements the body branch of `process_request` appends to the
sampler (source lines 184-244): a raw marker plus one-argument container
for a truthy raw body, a container of per-entry arguments for a truthy
urlencoded body, and an empty container for every other body shape and
for an absent body. -/
def bodyChildren : Option Body → List XElem
  | some b =>
    if b.mode == some "raw" && truthyStr b.raw then
      [boolProp "HTTPSampler.postBodyRaw" "true",
       argsContainer [rawBodyArg (b.raw.getD "")]]
    else if b.mode == some "urlencoded" && truthyList b.urlencoded then
      [argsContainer ((b.urlencoded.getD []).map urlencodedArg)]
    else
      [argsContainer []]
  | none => [argsContainer []]

/-- The fixed sampler properties (source lines 248-254). -/
def commonProps : List XElem :=
  [boolProp "HTTPSampler.auto_redirects" "false",
   boolProp "HTTPSampler.follow_redirects" "true",
   boolProp "HTTPSampler.use_keepalive" "true",
   boolProp "HTTPSampler.monitor" "false",
   boolProp "HTTPSampler.DO_MULTIPART_POST" "false",
   stringProp "HTTPSampler.embedded_url_re" none,
   stringProp "HTTPSampler.contentEncoding" none]

/-- The query arguments built from a parsed string-URL query: one per
value, grouped per key in `parse_qs` order (source lines 284-295). -/
def strQueryArgs (q : String) : List XElem :=
  (parseQs q).foldr (fun kv acc => kv.2.map (queryArg kv.1) ++ acc) []

/-- The elements the string-URL branch appends to the sampler (source
lines 264-295): the four scalar props, then - when the query string is
truthy - a freshly created argument container for the query parameters. -/
def strUrlChildren (s : String) : List XElem :=
  let p := pyUrlparse s
  [stringProp "HTTPSampler.domain" (some (pyHostname p)),
   stringProp "HTTPSampler.path" (some p.path),
   stringProp "HTTPSampler.protocol"
     (some (if p.scheme == "" then "http" else p.scheme)),
   stringProp "HTTPSampler.port"
     (some (match pyPort p with
            | some n => if n == 0 then "" else toString n
            | none => ""))]
  ++ (if p.query == "" then [] else [argsContainer (strQueryArgs p.query)])

/-- Strip one trailing colon from a protocol (source lines 311-312). -/
def stripTrailingColon (s : String) : String :=
  match s.toList.reverse with
  | ':' :: rest => String.mk rest.reverse
  | _ => s

/-- The four scalar props the structured-URL branch appends (source lines
297-316). -/
def objUrlScalarProps (u : StructUrl) : List XElem :=
  [stringProp "HTTPSampler.domain"
     (some (String.intercalate "." (u.host.getD ["localhost"]))),
   stringProp "HTTPSampler.path"
     (some (match u.path.getD (.segs []) with
            | .segs xs => "/" ++ String.intercalate "/" xs
            | .str s => s)),
   stringProp "HTTPSampler.protocol"
     (some (stripTrailingColon (u.protocol.getD "http"))),
   stringProp "HTTPSampler.port"
     (some ((u.port.map PortVal.toStr).getD ""))]

/-- The query arguments built from a structured URL `query` sequence:
entries missing `key` or `value` are skipped (source lines 341-351). -/
def objQueryArgs (u : StructUrl) : List XElem :=
  (u.query.getD []).filterMap (fun p =>
    if p.hasKeyValue then
      some (queryArg (p.key.getD "") (p.value.getD ""))
    else none)

/-- Whether an element is the `Arguments.arguments` collection of an
argument container (the trailing step of the source's XPath
`./elementProp[@name='HTTPsampler.Arguments']/collectionProp[@name='Arguments.arguments']`). -/
def isArgsCollectionProp (e : XElem) : Bool :=
  e.tag == "collectionProp" && lookupAttr e "name" == some "Arguments.arguments"

/-- Append `args` into the first matching `collectionProp` of a
container's children (models `ET` child appends after the XPath find). -/
def appendIntoColl (args : List XElem) : List XElem → List XElem
  | [] => []
  | c :: cs =>
    if isArgsCollectionProp c then
      .mk c.tag c.attrs c.text (c.children ++ args) :: cs
    else c :: appendIntoColl args cs

/-- Whether an element matches the full XPath above: an
`HTTPsampler.Arguments` elementProp holding a matching collectionProp. -/
def isArgsContainerElem (e : XElem) : Bool :=
  e.tag == "elementProp" && lookupAttr e "name" == some "HTTPsampler.Arguments"
    && e.children.any isArgsCollectionProp

/-- The structured-URL query merge (source lines 329-339): append the
query arguments into the first container matched by the XPath, or create
the container when the XPath matches nothing. -/
def appendToArgsContainer (args : List XElem) : List XElem → List XElem
  | [] => [argsContainer args]
  | e :: rest =>
    if isArgsContainerElem e then
      .mk e.tag e.attrs e.text (appendIntoColl args e.children) :: rest
    else e :: appendToArgsContainer args rest

/-- The children of the `HTTPSamplerProxy` element built by
`process_request`: body elements, fixed props, method, then the URL
handling (which, in the structured branch, merges truthy query sequences
into the existing argument container). -/
def samplerChildren (r : Request) : List XElem :=
  let c0 := bodyChildren r.body ++ commonProps
    ++ [stringProp "HTTPSampler.method" (some (r.method.getD "GET"))]
  match r.url with
  | none => c0
  | some (.str s) => c0 ++ strUrlChildren s
  | some (.obj u) =>
    let c1 := c0 ++ objUrlScalarProps u
    if truthyList u.query then appendToArgsContainer (objQueryArgs u) c1 else c1

/-- One header entry (source lines 367-373). -/
def headerElem (h : KV) : XElem :=
  .mk "elementProp" [("name", ""), ("elementType", "Header")] none
    [stringProp "Header.name" (some (h.key.getD "")),
     stringProp "Header.value" (some (h.value.getD ""))]

/-- The `HeaderManager` element (source lines 359-373). -/
def headerManager (hs : List KV) : XElem :=
  .mk "HeaderManager"
    [("guiclass", "HeaderPanel"), ("testclass", "HeaderManager"),
     ("testname", "HTTP Header Manager"), ("enabled", "true")]
    none
    [.mk "collectionProp" [("name", "HeaderManager.headers")] none
       (hs.map headerElem)]

/-- One user-defined-variable argument (`add_user_defined_variables`,
only emitted when both `key` and `value` are present). -/
def varArg (v : Var) : XElem :=
  .mk "elementProp" [("name", v.key.getD ""), ("elementType", "Argument")] none
    [stringProp "Argument.name" (some (v.key.getD "")),
     stringProp "Argument.value" (some (v.value.getD "")),
     stringProp "Argument.metadata" (some "=")]

/-- `add_user_defined_variables(variables, parent, name)`: nothing for a
falsy list, otherwise an `Arguments` element (entries missing `key` or
`value` skipped) immediately followed by its closing `hashTree`. -/
def addUserDefinedVariables (vars : List Var) (nm : String) : List XElem :=
  if vars.isEmpty then []
  else
    [.mk "Arguments"
       [("guiclass", "ArgumentsPanel"), ("testclass", "Arguments"),
        ("testname", nm), ("enabled", "true")]
       none
       [.mk "collectionProp" [("name", "Arguments.arguments")] none
          (vars.filterMap (fun v =>
            if v.hasKeyValue then some (varArg v) else none))],
     hashTreeElem]

/-- The children of the sampler's own `hashTree` scope: a header manager
with its closer for a truthy header list (source lines 358-375), then a
"URL Path Variables" block for a truthy structured-URL `variable`
sequence (source lines 381-382). -/
def samplerScopeChildren (r : Request) : List XElem :=
  (if truthyList r.header then
     [headerManager (r.header.getD []), hashTreeElem]
   else [])
  ++ (match r.url with
      | some (.obj u) =>
        if truthyList u.variableEntries then
          addUserDefinedVariables (u.variableEntries.getD []) "URL Path Variables"
        else []
      | _ => [])

/-- `process_request(item, parent)`: nothing when the item has no
`request` field, otherwise the sampler followed by its `hashTree` scope. -/
def processLeaf (name : Option String) : Option Request → List XElem
  | none => []
  | some r =>
    [.mk "HTTPSamplerProxy"
       [("guiclass", "HttpTestSampleGui"), ("testclass", "HTTPSamplerProxy"),
        ("testname", name.getD "Unnamed Request"), ("enabled", "true")]
       none (samplerChildren r),
     .mk "hashTree" [] none (samplerScopeChildren r)]

/-- `process_items(items, parent)`: folders are recursed into in place and
contribute no element; leaves are handed to `process_request`. -/
def processItems : List PMItem → List XElem
  | [] => []
  | i :: rest => processOneItem i ++ processItems rest
where processOneItem : PMItem → List XElem
  | .folder cs => processItems cs
  | .leaf nm rq => processLeaf nm rq

/-- The fixed `TestPlan` element (source lines 41-57). -/
def testPlanElem : XElem :=
  .mk "TestPlan"
    [("guiclass", "TestPlanGui"), ("testclass", "TestPlan"),
     ("testname", "Postman Collection Import"), ("enabled", "true")]
    none
    [boolProp "TestPlan.functional_mode" "false",
     stringProp "TestPlan.comments" none,
     boolProp "TestPlan.serialize_threadgroups" "false",
     stringProp "TestPlan.user_define_classpath" none,
     .mk "elementProp"
       [("name", "TestPlan.user_defined_variables"), ("elementType", "Arguments")]
       none
       [.mk "collectionProp" [("name", "Arguments.arguments")] none []]]

/-- The `ThreadGroup` element named from `collection.info.name` (source
lines 62-85). -/
def threadGroupElem (collection : Collection) : XElem :=
  .mk "ThreadGroup"
    [("guiclass", "ThreadGroupGui"), ("testclass", "ThreadGroup"),
     ("testname", collection.infoName.getD "Postman Requests"),
     ("enabled", "true")]
    none
    [.mk "elementProp"
       [("name", "ThreadGroup.main_controller"), ("elementType", "LoopController"),
        ("guiclass", "LoopControlPanel"), ("testclass", "LoopController"),
        ("enabled", "true")]
       none
       [boolProp "LoopController.continue_forever" "false",
        stringProp "LoopController.loops" (some "1")],
     stringProp "ThreadGroup.num_threads" (some "1"),
     stringProp "ThreadGroup.ramp_time" (some "1"),
     boolProp "ThreadGroup.scheduler" "false",
     stringProp "ThreadGroup.duration" (some "0"),
     stringProp "ThreadGroup.delay" (some "0"),
     stringProp "ThreadGroup.on_sample_error" (some "continue"),
     boolProp "ThreadGroup.same_user_on_next_iteration" "true"]

/-- The in-memory document `convert_postman_to_jmx` builds before
serialization (source lines 37-99), as a function of the parsed
collection and the already-filtered environment variables. -/
def buildDoc (collection : Collection) (environmentVars : List Var) : XElem :=
  .mk "jmeterTestPlan"
    [("version", "1.2"), ("properties", "5.0"), ("jmeter", "5.2.1")]
    none
    [.mk "hashTree" [] none
       [testPlanElem,
        .mk "hashTree" [] none
          [threadGroupElem collection,
           .mk "hashTree" [] none
             ((match collection.varEntries with
               | some vs => addUserDefinedVariables vs "Collection Variables"
               | none => [])
              ++ (if environmentVars.isEmpty then []
                  else addUserDefinedVariables environmentVars "Environment Variables")
              ++ (match collection.items with
                  | some items => processItems items
                  | none => []))]]]

/-! ### Serialization (`ET.tostring` + `minidom.parseString` +
`toprettyxml(indent="    ")`, source lines 101-108)

`ET.tostring` renders an element with falsy text and no children as a
self-closing tag, so after the minidom round trip an element carries a
text node exactly when its text is a non-empty string.  `toprettyxml`
writes a childless element self-closing, an element whose only child is a
text node on one line, and otherwise opens a block indented by four more
spaces per level; text data keeps its newlines verbatim. -/

/-- The `&`, `<`, `"`, `>` escaping minidom's `_write_data` applies to
both text and attribute data (kept on character lists so the kernel can
evaluate it). -/
def escapeXml (s : String) : String :=
  String.mk (s.toList.foldr (fun c acc =>
    if c == '&' then '&' :: 'a' :: 'm' :: 'p' :: ';' :: acc
    else if c == '<' then '&' :: 'l' :: 't' :: ';' :: acc
    else if c == '>' then '&' :: 'g' :: 't' :: ';' :: acc
    else if c == '\x22' then '&' :: 'q' :: 'u' :: 'o' :: 't' :: ';' :: acc
    else c :: acc) [])

/-- Attribute rendering, in document order. -/
def attrsString (attrs : List (String × String)) : String :=
  attrs.foldl (fun acc kv =>
    acc ++ " " ++ kv.1 ++ "=\x22" ++ escapeXml kv.2 ++ "\x22") ""

/-- The text node minidom sees after the `ET.tostring` round trip:
present exactly for truthy text. -/
def minidomText (e : XElem) : Option String :=
  match e.text with
  | some t => if t == "" then none else some t
  | none => none

mutual
/-- `minidom` `Element.writexml` with `addindent="    "`, `newl="\n"`
(the indent argument comes last so the recursion is structural in the
element). -/
def writexml (add : String) (e : XElem) : String → String :=
  match e with
  | .mk tg attrs tx cs => fun ind =>
    let opening := ind ++ "<" ++ tg ++ attrsString attrs
    match minidomText (.mk tg attrs tx cs), cs with
    | none, [] => opening ++ "/>\n"
    | some t, [] => opening ++ ">" ++ escapeXml t ++ "</" ++ tg ++ ">\n"
    | tOpt, cs2 =>
      opening ++ ">\n"
        ++ (match tOpt with
            | some t => ind ++ add ++ escapeXml t ++ "\n"
            | none => "")
        ++ writeForest add cs2 ind
        ++ ind ++ "</" ++ tg ++ ">\n"
/-- The children loop of `Element.writexml`. -/
def writeForest (add : String) : List XElem → String → String
  | [] => fun _ => ""
  | c :: cs => fun ind => writexml add c (ind ++ add) ++ writeForest add cs ind
end

/-- `toprettyxml(indent="    ")` on the parsed document: the XML
declaration, then the root element. -/
def prettyPrint (doc : XElem) : String :=
  "<?xml version=\x221.0\x22 ?>\n" ++ writexml "    " doc ""

/-! ### The loader and the conversion pipeline (source lines 7-108) -/

/-- The fate of a JSON input file: absent, unparseable, or parsed. -/
inductive JsonFile (A : Type) where
  | missing
  | malformed
  | parsed (val : A)

/-- The fatal load errors the collection load can raise (`open` raising
`FileNotFoundError`, `json.load` raising `JSONDecodeError`); both
propagate to the caller. -/
inductive LoadError where
  | fileNotFound
  | jsonDecode
deriving DecidableEq

/-- The warning printed for a missing environment file. -/
def envWarningNotFound (path : String) : String :=
  "Warning: Environment file '" ++ path ++ "' not found. Skipping environment variables."

/-- The warning printed for an unparseable environment file. -/
def envWarningBadJson (path : String) : String :=
  "Warning: Could not parse environment file '" ++ path ++ "'. Skipping environment variables."

/-- The environment filter (source line 29): keep entries whose `enabled`
field is truthy, defaulting to `True` when absent; an absent `values`
field yields no entries. -/
def enabledEnvVars (d : EnvDoc) : List Var :=
  (d.values.getD []).filter (fun v => v.enabled.getD true)

/-- `convert_postman_to_jmx`: the collection file is loaded first and a
missing or unparseable collection propagates its load error before
anything is built or written; an environment file problem only produces a
warning.  On success the result is the pretty-printed serialized text
(the only thing written to the output file) paired with the warnings
printed along the way. -/
def convertPostmanToJmx (collectionFile : JsonFile Collection)
    (environmentFile : Option (JsonFile EnvDoc × String)) :
    Except LoadError (String × List String) :=
  match collectionFile with
  | .missing => .error .fileNotFound
  | .malformed => .error .jsonDecode
  | .parsed collection =>
    let envLoad : List Var × List String :=
      match environmentFile with
      | none => ([], [])
      | some (.missing, path) => ([], [envWarningNotFound path])
      | some (.malformed, path) => ([], [envWarningBadJson path])
      | some (.parsed d, _) => (enabledEnvVars d, [])
    .ok (prettyPrint (buildDoc collection envLoad.1), envLoad.2)


/-- The lines of the serialized text, split on newline as Python
`str.split("\n")` does (kept on lists so the kernel can evaluate it). -/
def linesOf (s : String) : List String :=
  (splitOnChar '\n' s.toList).map String.mk

/-- Suffix test on strings via character lists (kernel-evaluable
replacement for `String.endsWith`). -/
def strEndsWith (s suffix : String) : Bool :=
  List.isSuffixOf suffix.toList s.toList

/-- Whether a line consists only of whitespace, as Python's
`line.strip()` emptiness test used for blank-line stripping sees it. -/
def isBlankLine (s : String) : Bool :=
  s.toList.all (fun c => c == ' ' || c == '\t' || c == '\n' || c == '\r')

/-! ### Observations on the produced document

These functions only read the tree; the claims are stated through them. -/

/-- Whether an element is a property leaf of the given tag carrying the
given `name` attribute. -/
def isPropNamed (tg nm : String) (e : XElem) : Bool :=
  e.tag == tg && lookupAttr e "name" == some nm

/-- The text of the first property of tag `tg` named `nm` among `cs`
(outer `none` when no such property exists; inner `none` for a property
with no text). -/
def getProp (cs : List XElem) (tg nm : String) : Option (Option String) :=
  (cs.find? (isPropNamed tg nm)).map XElem.text

/-- The text of the first `stringProp` named `nm` among `cs`, defaulted to
`""`. -/
def propText (cs : List XElem) (nm : String) : String :=
  match getProp cs "stringProp" nm with
  | some (some t) => t
  | _ => ""

/-- The argument containers among a sampler's children: the `elementProp`
elements named `HTTPsampler.Arguments`. -/
def argsContainers (cs : List XElem) : List XElem :=
  cs.filter (fun e =>
    e.tag == "elementProp" && lookupAttr e "name" == some "HTTPsampler.Arguments")

/-- The argument containers sitting directly on a sampler element. -/
def argsContainersOf (sampler : XElem) : List XElem :=
  argsContainers sampler.children

/-- The argument list held by an argument container (the children of its
`Arguments.arguments` collection). -/
def containerArgs (e : XElem) : Option (List XElem) :=
  (e.children.find? isArgsCollectionProp).map XElem.children

/-- Whether an argument container is present but empty. -/
def containerIsEmpty (e : XElem) : Bool :=
  match containerArgs e with
  | some l => l.isEmpty
  | none => false

mutual
/-- The number of elements with tag `tg` anywhere in a tree. -/
def countTagTree (tg : String) : XElem → Nat
  | .mk t _ _ cs => (if t == tg then 1 else 0) + countTagForest tg cs
/-- The number of elements with tag `tg` anywhere in a forest. -/
def countTagForest (tg : String) : List XElem → Nat
  | [] => 0
  | c :: cs => countTagTree tg c + countTagForest tg cs
end

mutual
/-- The `testname` attributes of all `HTTPSamplerProxy` elements of a
tree, in depth-first document order. -/
def samplerNamesTree : XElem → List String
  | .mk t a _ cs =>
    (if t == "HTTPSamplerProxy" then [(List.lookup "testname" a).getD ""] else [])
      ++ samplerNamesForest cs
/-- The `testname` attributes of all `HTTPSamplerProxy` elements of a
forest, in depth-first document order. -/
def samplerNamesForest : List XElem → List String
  | [] => []
  | c :: cs => samplerNamesTree c ++ samplerNamesForest cs
end

mutual
/-- Whether no element anywhere in a tree has a tag satisfying `p`. -/
def noTagTree (p : String → Bool) : XElem → Bool
  | .mk t _ _ cs => !p t && noTagForest p cs
/-- Whether no element anywhere in a forest has a tag satisfying `p`. -/
def noTagForest (p : String → Bool) : List XElem → Bool
  | [] => true
  | c :: cs => noTagTree p c && noTagForest p cs
end

/-- The tags that open a scope in JMeter's execution model among the
elements this converter generates: the thread group, the named
variable blocks, the samplers and the header managers. -/
def isOpener (t : String) : Bool :=
  t == "ThreadGroup" || t == "Arguments" || t == "HTTPSamplerProxy"
    || t == "HeaderManager"

/-- Whether, in a sibling list, every scope-opening element is immediately
followed by a `hashTree` element. -/
def siblingOk : List XElem → Bool
  | [] => true
  | e :: rest =>
    (if isOpener e.tag then
       match rest with
       | f :: _ => f.tag == "hashTree"
       | [] => false
     else true) && siblingOk rest

mutual
/-- Whether every sibling list anywhere in a tree satisfies `siblingOk`. -/
def treeOk : XElem → Bool
  | .mk _ _ _ cs => siblingOk cs && treeForestOk cs
/-- Whether every tree of a forest satisfies `treeOk`. -/
def treeForestOk : List XElem → Bool
  | [] => true
  | c :: cs => treeOk c && treeForestOk cs
end

/-- The number of leaf requests (items with a `request` field) in an item
forest, folders recursed into. -/
def leafRequestCount : List PMItem → Nat
  | [] => 0
  | i :: rest => itemCount i + leafRequestCount rest
where itemCount : PMItem → Nat
  | .folder cs => leafRequestCount cs
  | .leaf _ rq => if rq.isSome then 1 else 0

/-- The sampler names the leaf requests of an item forest give rise to, in
depth-first pre-order. -/
def leafNames : List PMItem → List String
  | [] => []
  | i :: rest => itemNames i ++ leafNames rest
where itemNames : PMItem → List String
  | .folder cs => leafNames cs
  | .leaf nm rq => if rq.isSome then [nm.getD "Unnamed Request"] else []

/-- Whether an element is the "Environment Variables" block. -/
def isEnvBlock (e : XElem) : Bool :=
  e.tag == "Arguments" && lookupAttr e "testname" == some "Environment Variables"

/-- The `(Argument.name, Argument.value)` pairs held by a variable block. -/
def blockArgPairs (block : XElem) : List (String × String) :=
  match block.children.find? (fun c => c.tag == "collectionProp") with
  | some coll =>
    coll.children.map (fun a =>
      (propText a.children "Argument.name", propText a.children "Argument.value"))
  | none => []

/-- The contents of the "Environment Variables" block of a produced
document: navigate to the thread group's `hashTree` scope and read the
block there ( `[]` when the block is absent). -/
def envBlockArgs (doc : XElem) : List (String × String) :=
  match doc.children.find? (fun e => e.tag == "hashTree") with
  | none => []
  | some ht1 =>
    match ht1.children.find? (fun e => e.tag == "hashTree") with
    | none => []
    | some ht2 =>
      match ht2.children.find? (fun e => e.tag == "hashTree") with
      | none => []
      | some ht3 =>
        match ht3.children.find? isEnvBlock with
        | none => []
        | some b => blockArgPairs b

/-- The output text a conversion run writes to the output file: `none`
when the run aborts with a load error (the write happens after the whole
document is built, so an aborted run writes nothing, not even partially). -/
def writtenOutput : Except LoadError (String × List String) → Option String
  | .ok (s, _) => some s
  | .error _ => none

/-- The tags of the property/argument elements that make up the inner
content of samplers, variable blocks and header managers. -/
def contentTag (t : String) : Bool :=
  t == "elementProp" || t == "boolProp" || t == "stringProp" || t == "collectionProp"

/-- The tag predicate for "is not a content tag" (content subtrees
contain no scope-opening element, no sampler and no header manager). -/
def notContent (t : String) : Bool :=
  !contentTag t

/-- A forest is a wellformed sibling chunk when all its trees are
internally wellformed and prefixing it to any wellformed sibling list
keeps the opener/closer pairing intact (in particular its own trailing
opener, if any, is already closed inside the chunk). -/
def chunkOk (xs : List XElem) : Prop :=
  treeForestOk xs = true ∧ ∀ ys, siblingOk ys = true → siblingOk (xs ++ ys) = true

/-- Whether a request URL contributes no query argument: no URL, a string
URL whose parsed query is empty, or a structured URL without a truthy
`query` sequence. -/
def urlQueryFree : Option UrlData → Bool
  | none => true
  | some (.str s) => (pyUrlparse s).query == ""
  | some (.obj u) => !truthyList u.query

/-- Concrete input for claim C1: a request with no body whose string URL
carries a query string. -/
def c1Request : Request :=
  ⟨none, none, none, some (.str "http://example.com/a?x=1")⟩

/-- Concrete input for claim C2: a request whose structured URL object
has no `port` field. -/
def c2Request : Request :=
  ⟨none, none, none, some (.obj ⟨none, none, none, none, none, none⟩)⟩

/-- Concrete input for claim C2: a collection holding `c2Request`. -/
def c2Collection : Collection :=
  ⟨some "C", none, some [.leaf (some "r") (some c2Request)]⟩

/-- Concrete input for claim C6's witness: the structured URL object of
the specification's structured-URL example. -/
def c6Url : StructUrl :=
  ⟨some ["example", "com"], some (.segs ["api", "users"]), some "http:",
   some (.str "8080"), none, none⟩

/-- Concrete input for claim C6's witness: a request carrying `c6Url`. -/
def c6Request : Request :=
  ⟨none, none, none, some (.obj c6Url)⟩

/-- Concrete input for claim C10's witness: a request whose body has mode
`raw` and an empty raw payload. -/
def c10Request : Request :=
  ⟨none, none, some ⟨some "raw", some "", none⟩, none⟩

/-- Concrete input for claim C7's counterexample: a request with no
`body` and no `header` field whose structured URL carries one query
parameter. -/
def c7Request : Request :=
  ⟨none, none, none, some (.obj ⟨none, none, none, none, some [⟨some "a", some "b"⟩], none⟩)⟩

/-- Concrete input for claim C9: a collection with one request whose raw
body contains an empty line. -/
def c9Collection : Collection :=
  ⟨some "C", none, some [.leaf (some "r")
    (some ⟨none, none, some ⟨some "raw", some "a\n\nb", none⟩, none⟩)]⟩

/-! ### Generic lemmas about the observation functions -/

theorem noTagForest_append (p : String → Bool) (xs ys : List XElem) :
    noTagForest p (xs ++ ys) = (noTagForest p xs && noTagForest p ys) := by
  induction xs with
  | nil => simp [noTagForest]
  | cons c cs ih => simp [noTagForest, ih, Bool.and_assoc]

theorem noTagForest_map {α : Type} (p : String → Bool) (f : α → XElem)
    (h : ∀ x, noTagTree p (f x) = true) (l : List α) :
    noTagForest p (l.map f) = true := by
  induction l with
  | nil => rfl
  | cons x xs ih => simp [noTagForest, h x, ih]

theorem noTagForest_filterMap {α : Type} (p : String → Bool) (f : α → Option XElem)
    (h : ∀ x y, f x = some y → noTagTree p y = true) (l : List α) :
    noTagForest p (l.filterMap f) = true := by
  induction l with
  | nil => rfl
  | cons x xs ih =>
    cases hfx : f x with
    | none => simpa [List.filterMap_cons, hfx] using ih
    | some y => simp [List.filterMap_cons, hfx, noTagForest, h x y hfx, ih]

mutual
theorem noTagTree_mono (p q : String → Bool) (hpq : ∀ t, q t = true → p t = true) :
    ∀ e, noTagTree p e = true → noTagTree q e = true
  | .mk t a tx cs, h => by
    simp only [noTagTree, Bool.and_eq_true, Bool.not_eq_true'] at h ⊢
    refine ⟨?_, noTagForest_mono p q hpq cs h.2⟩
    cases hq : q t with
    | false => rfl
    | true => rw [hpq t hq] at h; exact absurd h.1 (by simp)
theorem noTagForest_mono (p q : String → Bool) (hpq : ∀ t, q t = true → p t = true) :
    ∀ cs, noTagForest p cs = true → noTagForest q cs = true
  | [], _ => rfl
  | c :: cs, h => by
    simp only [noTagForest, Bool.and_eq_true] at h ⊢
    exact ⟨noTagTree_mono p q hpq c h.1, noTagForest_mono p q hpq cs h.2⟩
end

theorem siblingOk_of_noTag (cs : List XElem) (h : noTagForest isOpener cs = true) :
    siblingOk cs = true := by
  induction cs with
  | nil => rfl
  | cons c cs ih =>
    simp only [noTagForest, Bool.and_eq_true] at h
    cases c with
    | mk t a tx ccs =>
      simp only [noTagTree, Bool.and_eq_true, Bool.not_eq_true'] at h
      simp [siblingOk, XElem.tag, h.1.1, ih h.2]

mutual
theorem treeOk_of_noTag : ∀ e, noTagTree isOpener e = true → treeOk e = true
  | .mk t a tx cs, h => by
    simp only [noTagTree, Bool.and_eq_true] at h
    simp [treeOk, siblingOk_of_noTag cs h.2, treeForestOk_of_noTag cs h.2]
theorem treeForestOk_of_noTag : ∀ cs, noTagForest isOpener cs = true → treeForestOk cs = true
  | [], _ => rfl
  | c :: cs, h => by
    simp only [noTagForest, Bool.and_eq_true] at h
    simp [treeForestOk, treeOk_of_noTag c h.1, treeForestOk_of_noTag cs h.2]
end

mutual
theorem samplerNames_nil_of_noTag :
    ∀ e, noTagTree (fun t => t == "HTTPSamplerProxy") e = true → samplerNamesTree e = []
  | .mk t a tx cs, h => by
    simp only [noTagTree, Bool.and_eq_true, Bool.not_eq_true'] at h
    simp [samplerNamesTree, h.1, samplerNamesForest_nil_of_noTag cs h.2]
theorem samplerNamesForest_nil_of_noTag :
    ∀ cs, noTagForest (fun t => t == "HTTPSamplerProxy") cs = true → samplerNamesForest cs = []
  | [], _ => rfl
  | c :: cs, h => by
    simp only [noTagForest, Bool.and_eq_true] at h
    simp [samplerNamesForest, samplerNames_nil_of_noTag c h.1,
      samplerNamesForest_nil_of_noTag cs h.2]
end

mutual
theorem countTag_zero_of_noTag (tg : String) :
    ∀ e, noTagTree (fun t => t == tg) e = true → countTagTree tg e = 0
  | .mk t a tx cs, h => by
    simp only [noTagTree, Bool.and_eq_true, Bool.not_eq_true'] at h
    simp [countTagTree, h.1, countTagForest_zero_of_noTag tg cs h.2]
theorem countTagForest_zero_of_noTag (tg : String) :
    ∀ cs, noTagForest (fun t => t == tg) cs = true → countTagForest tg cs = 0
  | [], _ => rfl
  | c :: cs, h => by
    simp only [noTagForest, Bool.and_eq_true] at h
    simp [countTagForest, countTag_zero_of_noTag tg c h.1,
      countTagForest_zero_of_noTag tg cs h.2]
end

theorem treeForestOk_append (xs ys : List XElem) :
    treeForestOk (xs ++ ys) = (treeForestOk xs && treeForestOk ys) := by
  induction xs with
  | nil => simp [treeForestOk]
  | cons c cs ih => simp [treeForestOk, ih, Bool.and_assoc]

theorem samplerNamesForest_append (xs ys : List XElem) :
    samplerNamesForest (xs ++ ys) = samplerNamesForest xs ++ samplerNamesForest ys := by
  induction xs with
  | nil => simp [samplerNamesForest]
  | cons c cs ih => simp [samplerNamesForest, ih]

/-! ### Content lemmas: the inner element shapes carry only property tags -/

theorem notContent_opener (t : String) (h : isOpener t = true) : notContent t = true := by
  simp only [isOpener, Bool.or_eq_true, beq_iff_eq] at h
  rcases h with ((h | h) | h) | h <;> subst h <;> rfl

theorem notContent_sampler (t : String) (h : (t == "HTTPSamplerProxy") = true) :
    notContent t = true := by
  rw [beq_iff_eq] at h; subst h; rfl

theorem notContent_headerManager (t : String) (h : (t == "HeaderManager") = true) :
    notContent t = true := by
  rw [beq_iff_eq] at h; subst h; rfl

theorem contentTree_stringProp (nm : String) (v : Option String) :
    noTagTree notContent (stringProp nm v) = true := rfl

theorem contentTree_boolProp (nm v : String) :
    noTagTree notContent (boolProp nm v) = true := rfl

theorem contentTree_rawBodyArg (s : String) :
    noTagTree notContent (rawBodyArg s) = true := rfl

theorem contentTree_urlencodedArg (p : KV) :
    noTagTree notContent (urlencodedArg p) = true := rfl

theorem contentTree_queryArg (k v : String) :
    noTagTree notContent (queryArg k v) = true := rfl

theorem contentTree_varArg (v : Var) :
    noTagTree notContent (varArg v) = true := rfl

theorem contentTree_headerElem (h : KV) :
    noTagTree notContent (headerElem h) = true := rfl

theorem contentTree_argsContainer (args : List XElem)
    (h : noTagForest notContent args = true) :
    noTagTree notContent (argsContainer args) = true := by
  simp [argsContainer, noTagTree, noTagForest, notContent, contentTag, h]

theorem contentForest_bodyChildren (b : Option Body) :
    noTagForest notContent (bodyChildren b) = true := by
  have hempty : noTagTree notContent (argsContainer []) = true :=
    contentTree_argsContainer [] rfl
  match b with
  | none => exact (by simp [noTagForest, hempty])
  | some b =>
    simp only [bodyChildren]
    split
    · have h1 : noTagForest notContent [rawBodyArg (b.raw.getD "")] = true := by
        simp [noTagForest, contentTree_rawBodyArg]
      simp [noTagForest, contentTree_boolProp, contentTree_argsContainer _ h1]
    · split
      · have h1 : noTagForest notContent ((b.urlencoded.getD []).map urlencodedArg) = true :=
          noTagForest_map notContent urlencodedArg contentTree_urlencodedArg _
        simp [noTagForest, contentTree_argsContainer _ h1]
      · simp [noTagForest, hempty]

theorem contentForest_commonProps : noTagForest notContent commonProps = true := rfl

theorem contentForest_strQueryArgs (q : String) :
    noTagForest notContent (strQueryArgs q) = true := by
  unfold strQueryArgs
  induction parseQs q with
  | nil => rfl
  | cons kv rest ih =>
    simp only [List.foldr_cons, noTagForest_append, Bool.and_eq_true]
    exact ⟨noTagForest_map _ _ (fun v => contentTree_queryArg kv.1 v) kv.2, ih⟩

theorem contentForest_strUrlChildren (s : String) :
    noTagForest notContent (strUrlChildren s) = true := by
  simp only [strUrlChildren, noTagForest_append, Bool.and_eq_true]
  constructor
  · simp [noTagForest, contentTree_stringProp]
  · split
    · rfl
    · simp [noTagForest, contentTree_argsContainer _ (contentForest_strQueryArgs _)]

theorem contentForest_objUrlScalarProps (u : StructUrl) :
    noTagForest notContent (objUrlScalarProps u) = true := by
  simp [objUrlScalarProps, noTagForest, contentTree_stringProp]

theorem contentForest_objQueryArgs (u : StructUrl) :
    noTagForest notContent (objQueryArgs u) = true := by
  refine noTagForest_filterMap _ _ (fun x y hxy => ?_) _
  simp only [] at hxy
  split at hxy
  · cases hxy; exact contentTree_queryArg _ _
  · cases hxy

theorem noTagForest_appendIntoColl (p : String → Bool) (args cs : List XElem)
    (hcs : noTagForest p cs = true) (hargs : noTagForest p args = true) :
    noTagForest p (appendIntoColl args cs) = true := by
  induction cs with
  | nil => rfl
  | cons c cs ih =>
    simp only [noTagForest, Bool.and_eq_true] at hcs
    by_cases h : isArgsCollectionProp c = true
    · cases c with
      | mk t a tx ccs =>
        simp only [appendIntoColl, h, if_true, noTagForest, Bool.and_eq_true]
        refine ⟨?_, hcs.2⟩
        have h1 := hcs.1
        simp only [noTagTree, Bool.and_eq_true] at h1 ⊢
        exact ⟨h1.1, by rw [XElem.children, noTagForest_append]; simp [h1.2, hargs]⟩
    · simp only [appendIntoColl, h, if_false, noTagForest, Bool.and_eq_true]
      exact ⟨hcs.1, ih hcs.2⟩

theorem noTagForest_appendToArgs (p : String → Bool) (args cs : List XElem)
    (hp1 : p "elementProp" = false) (hp2 : p "collectionProp" = false)
    (hcs : noTagForest p cs = true) (hargs : noTagForest p args = true) :
    noTagForest p (appendToArgsContainer args cs) = true := by
  induction cs with
  | nil =>
    simp [appendToArgsContainer, noTagForest, noTagTree, argsContainer, hp1, hp2, hargs]
  | cons c cs ih =>
    simp only [noTagForest, Bool.and_eq_true] at hcs
    by_cases h : isArgsContainerElem c = true
    · cases c with
      | mk t a tx ccs =>
        simp only [appendToArgsContainer, h, if_true, noTagForest, Bool.and_eq_true]
        refine ⟨?_, hcs.2⟩
        have h1 := hcs.1
        simp only [noTagTree, Bool.and_eq_true] at h1 ⊢
        exact ⟨h1.1, noTagForest_appendIntoColl p args ccs h1.2 hargs⟩
    · simp only [appendToArgsContainer, h, if_false, noTagForest, Bool.and_eq_true]
      exact ⟨hcs.1, ih hcs.2⟩

theorem contentForest_samplerChildren (r : Request) :
    noTagForest notContent (samplerChildren r) = true := by
  have hc0 : noTagForest notContent
      (bodyChildren r.body ++ commonProps
        ++ [stringProp "HTTPSampler.method" (some (r.method.getD "GET"))]) = true := by
    rw [noTagForest_append, noTagForest_append]
    simp [contentForest_bodyChildren, contentForest_commonProps,
      noTagForest, contentTree_stringProp, contentTree_boolProp]
  cases hu : r.url with
  | none => simpa only [samplerChildren, hu] using hc0
  | some ud =>
    cases ud with
    | str s =>
      simp only [samplerChildren, hu]
      rw [noTagForest_append, noTagForest_append, noTagForest_append]
      simp only [noTagForest_append, Bool.and_eq_true] at hc0
      simp [hc0.1, hc0.2, contentForest_strUrlChildren]
    | obj u =>
      have hc1 : noTagForest notContent
          (bodyChildren r.body ++ commonProps
            ++ [stringProp "HTTPSampler.method" (some (r.method.getD "GET"))]
            ++ objUrlScalarProps u) = true := by
        rw [noTagForest_append, hc0, contentForest_objUrlScalarProps]
        rfl
      simp only [samplerChildren, hu]
      by_cases hq : truthyList u.query = true
      · simp only [hq, if_true]
        exact noTagForest_appendToArgs _ _ _ rfl rfl hc1 (contentForest_objQueryArgs u)
      · simp only [hq, if_false]
        exact hc1

/-! ### The scope-closer chunk discipline -/

theorem chunkOk_nil : chunkOk [] := ⟨rfl, fun _ h => h⟩

theorem chunkOk_append (xs ys : List XElem) (hx : chunkOk xs) (hy : chunkOk ys) :
    chunkOk (xs ++ ys) := by
  constructor
  · rw [treeForestOk_append, hx.1, hy.1]; rfl
  · intro zs hz
    rw [List.append_assoc]
    exact hx.2 _ (hy.2 _ hz)

theorem treeOk_of_content (e : XElem) (h : noTagTree notContent e = true) :
    treeOk e = true :=
  treeOk_of_noTag e (noTagTree_mono notContent isOpener notContent_opener e h)

theorem treeOk_hashTreeElem : treeOk hashTreeElem = true := rfl

theorem treeOk_samplerElem (a : List (String × String)) (r : Request) :
    treeOk (.mk "HTTPSamplerProxy" a none (samplerChildren r)) = true := by
  have hop : noTagForest isOpener (samplerChildren r) = true :=
    noTagForest_mono notContent isOpener notContent_opener _ (contentForest_samplerChildren r)
  simp [treeOk, siblingOk_of_noTag _ hop, treeForestOk_of_noTag _ hop]

theorem treeOk_headerManager (hs : List KV) : treeOk (headerManager hs) = true := by
  have h1 : noTagForest notContent
      [XElem.mk "collectionProp" [("name", "HeaderManager.headers")] none
        (hs.map headerElem)] = true := by
    have hm := noTagForest_map notContent headerElem contentTree_headerElem hs
    simp [noTagForest, noTagTree, notContent, contentTag, hm]
  have hop := noTagForest_mono notContent isOpener notContent_opener _ h1
  simp [headerManager, treeOk, siblingOk_of_noTag _ hop, treeForestOk_of_noTag _ hop]

theorem contentForest_varArgs (vs : List Var) :
    noTagForest notContent (vs.filterMap (fun v =>
      if v.hasKeyValue then some (varArg v) else none)) = true := by
  refine noTagForest_filterMap _ _ (fun x y hxy => ?_) _
  simp only [] at hxy
  split at hxy
  · cases hxy; exact contentTree_varArg _
  · cases hxy

theorem chunkOk_addUDV (vs : List Var) (nm : String) :
    chunkOk (addUserDefinedVariables vs nm) := by
  unfold addUserDefinedVariables
  split
  · exact chunkOk_nil
  · constructor
    · have h1 : noTagForest notContent
          [XElem.mk "collectionProp" [("name", "Arguments.arguments")] none
            (vs.filterMap (fun v =>
              if v.hasKeyValue then some (varArg v) else none))] = true := by
        simp only [noTagForest, noTagTree, Bool.and_eq_true, Bool.not_eq_true']
        exact ⟨⟨rfl, contentForest_varArgs vs⟩, trivial⟩
      have hop := noTagForest_mono notContent isOpener notContent_opener _ h1
      have hArgs : treeOk (XElem.mk "Arguments"
          [("guiclass", "ArgumentsPanel"), ("testclass", "Arguments"),
           ("testname", nm), ("enabled", "true")] none
          [XElem.mk "collectionProp" [("name", "Arguments.arguments")] none
            (vs.filterMap (fun v =>
              if v.hasKeyValue then some (varArg v) else none))]) = true := by
        simp only [treeOk, Bool.and_eq_true]
        exact ⟨siblingOk_of_noTag _ hop, treeForestOk_of_noTag _ hop⟩
      simp only [treeForestOk, Bool.and_eq_true]
      refine ⟨hArgs, ?_, trivial⟩
      exact treeOk_hashTreeElem
    · intro ys hys
      simp [siblingOk, isOpener, XElem.tag, hashTreeElem, hys]

theorem chunkOk_samplerScopeChildren (r : Request) :
    chunkOk (samplerScopeChildren r) := by
  unfold samplerScopeChildren
  refine chunkOk_append _ _ ?_ ?_
  · split
    · constructor
      · simp [treeForestOk, treeOk_headerManager, treeOk_hashTreeElem]
      · intro ys hys
        simp [siblingOk, isOpener, XElem.tag, headerManager, hashTreeElem, hys]
    · exact chunkOk_nil
  · split
    · split
      · exact chunkOk_addUDV _ _
      · exact chunkOk_nil
    · exact chunkOk_nil

theorem chunkOk_processLeaf (nm : Option String) (rq : Option Request) :
    chunkOk (processLeaf nm rq) := by
  cases rq with
  | none => exact chunkOk_nil
  | some r =>
    have hscope := chunkOk_samplerScopeChildren r
    have hScopeTree : treeOk (.mk "hashTree" [] none (samplerScopeChildren r)) = true := by
      have hs : siblingOk (samplerScopeChildren r ++ []) = true := hscope.2 [] rfl
      rw [List.append_nil] at hs
      simp [treeOk, hs, hscope.1]
    constructor
    · simp [processLeaf, treeForestOk, treeOk_samplerElem, hScopeTree]
    · intro ys hys
      simp [processLeaf, siblingOk, isOpener, XElem.tag, hys]

mutual
theorem chunkOk_processItems : ∀ items, chunkOk (processItems items)
  | [] => chunkOk_nil
  | i :: rest =>
    chunkOk_append _ _ (chunkOk_processOneItem i) (chunkOk_processItems rest)
theorem chunkOk_processOneItem : ∀ i, chunkOk (processItems.processOneItem i)
  | .folder cs => chunkOk_processItems cs
  | .leaf nm rq => chunkOk_processLeaf nm rq
end

theorem treeOk_of_content_children (t : String) (a : List (String × String))
    (tx : Option String) (cs : List XElem) (h : noTagForest notContent cs = true) :
    treeOk (.mk t a tx cs) = true := by
  have hop := noTagForest_mono notContent isOpener notContent_opener _ h
  simp only [treeOk, Bool.and_eq_true]
  exact ⟨siblingOk_of_noTag _ hop, treeForestOk_of_noTag _ hop⟩

theorem chunkOk_ht3 (c : Collection) (env : List Var) :
    chunkOk ((match c.varEntries with
              | some vs => addUserDefinedVariables vs "Collection Variables"
              | none => [])
             ++ (if env.isEmpty then []
                 else addUserDefinedVariables env "Environment Variables")
             ++ (match c.items with
                 | some items => processItems items
                 | none => [])) := by
  refine chunkOk_append _ _ (chunkOk_append _ _ ?_ ?_) ?_
  · cases c.varEntries with
    | none => exact chunkOk_nil
    | some vs => exact chunkOk_addUDV vs _
  · split
    · exact chunkOk_nil
    · exact chunkOk_addUDV env _
  · cases c.items with
    | none => exact chunkOk_nil
    | some items => exact chunkOk_processItems items

theorem treeOk_skeleton (tg : XElem) (chunks : List XElem)
    (hTG : treeOk tg = true)
    (hsib : siblingOk chunks = true) (hfor : treeForestOk chunks = true) :
    treeOk (.mk "jmeterTestPlan"
      [("version", "1.2"), ("properties", "5.0"), ("jmeter", "5.2.1")] none
      [.mk "hashTree" [] none
        [testPlanElem,
         .mk "hashTree" [] none [tg, .mk "hashTree" [] none chunks]]]) = true := by
  have hTP : treeOk testPlanElem = true := by decide
  simp only [treeOk, treeForestOk, Bool.and_eq_true]
  refine ⟨?_, ⟨?_, hTP, ⟨?_, hTG, ⟨hsib, hfor⟩, trivial⟩, trivial⟩, trivial⟩
  · simp [siblingOk, isOpener, XElem.tag]
  · simp [siblingOk, isOpener, testPlanElem, XElem.tag]
  · simp [siblingOk, isOpener, XElem.tag]

/-- C4: in every document the converter produces, every generated
container element that opens a scope in JMeter's execution model (the
thread group, every named variable block, every sampler, every header
manager) is immediately followed by a sibling `hashTree` scope closer,
in every sibling list of the tree, including containers with no
children. -/
theorem c4_scope_closer_invariant (collection : Collection) (environmentVars : List Var) :
    treeOk (buildDoc collection environmentVars) = true := by
  have hchunk := chunkOk_ht3 collection environmentVars
  have hsib := hchunk.2 [] rfl
  rw [List.append_nil] at hsib
  have hTG : treeOk (threadGroupElem collection) = true := by
    unfold threadGroupElem
    exact treeOk_of_content_children _ _ _ _ rfl
  unfold buildDoc
  exact treeOk_skeleton _ _ hTG hsib hchunk.1

/-! ### Sampler collection lemmas (claim C3) -/

theorem samplerNamesForest_content (cs : List XElem) (h : noTagForest notContent cs = true) :
    samplerNamesForest cs = [] :=
  samplerNamesForest_nil_of_noTag cs
    (noTagForest_mono notContent (fun t => t == "HTTPSamplerProxy") notContent_sampler cs h)

theorem samplerNames_addUDV (vs : List Var) (nm : String) :
    samplerNamesForest (addUserDefinedVariables vs nm) = [] := by
  unfold addUserDefinedVariables
  split
  · rfl
  · have h1 : samplerNamesForest
        (vs.filterMap (fun v => if v.hasKeyValue then some (varArg v) else none)) = [] :=
      samplerNamesForest_content _ (contentForest_varArgs vs)
    simp [samplerNamesForest, samplerNamesTree, hashTreeElem, h1]

theorem samplerNames_processLeaf (nm : Option String) (rq : Option Request) :
    samplerNamesForest (processLeaf nm rq)
      = (match rq with
         | some _ => [nm.getD "Unnamed Request"]
         | none => []) := by
  cases rq with
  | none => rfl
  | some r =>
    have hch : samplerNamesForest (samplerChildren r) = [] :=
      samplerNamesForest_content _ (contentForest_samplerChildren r)
    have hh : samplerNamesForest
        (if truthyList r.header then
          [headerManager (r.header.getD []), hashTreeElem] else []) = [] := by
      split
      · have hm : samplerNamesForest ((r.header.getD []).map headerElem) = [] :=
          samplerNamesForest_content _
            (noTagForest_map notContent headerElem contentTree_headerElem _)
        simp [samplerNamesForest, samplerNamesTree, headerManager, hashTreeElem, hm]
      · rfl
    have hv : samplerNamesForest
        (match r.url with
         | some (.obj u) =>
           if truthyList u.variableEntries then
             addUserDefinedVariables (u.variableEntries.getD []) "URL Path Variables"
           else []
         | _ => []) = [] := by
      cases r.url with
      | none => rfl
      | some ud =>
        cases ud with
        | str s => rfl
        | obj u =>
          show samplerNamesForest (if truthyList u.variableEntries then
            addUserDefinedVariables (u.variableEntries.getD []) "URL Path Variables"
            else []) = []
          split
          · exact samplerNames_addUDV _ _
          · rfl
    have hscope : samplerNamesForest (samplerScopeChildren r) = [] := by
      unfold samplerScopeChildren
      rw [samplerNamesForest_append, hh, hv]
      rfl
    simp [processLeaf, samplerNamesForest, samplerNamesTree, hch, hscope, List.lookup]

mutual
theorem samplerNames_processItems :
    ∀ items, samplerNamesForest (processItems items) = leafNames items
  | [] => rfl
  | i :: rest => by
    show samplerNamesForest (processItems.processOneItem i ++ processItems rest)
      = leafNames.itemNames i ++ leafNames rest
    rw [samplerNamesForest_append, samplerNames_processOneItem i,
      samplerNames_processItems rest]
theorem samplerNames_processOneItem :
    ∀ i, samplerNamesForest (processItems.processOneItem i) = leafNames.itemNames i
  | .folder cs => samplerNames_processItems cs
  | .leaf nm rq => by
    show samplerNamesForest (processLeaf nm rq) = leafNames.itemNames (.leaf nm rq)
    rw [samplerNames_processLeaf]
    cases rq <;> rfl
end

mutual
theorem leafNames_length : ∀ items, (leafNames items).length = leafRequestCount items
  | [] => rfl
  | i :: rest => by
    show (leafNames.itemNames i ++ leafNames rest).length
      = leafRequestCount.itemCount i + leafRequestCount rest
    rw [List.length_append, leafNamesItem_length i, leafNames_length rest]
theorem leafNamesItem_length :
    ∀ i, (leafNames.itemNames i).length = leafRequestCount.itemCount i
  | .folder cs => leafNames_length cs
  | .leaf nm rq => by cases rq <;> rfl
end

theorem samplerNames_buildDoc (collection : Collection) (environmentVars : List Var) :
    samplerNamesTree (buildDoc collection environmentVars)
      = leafNames (collection.items.getD []) := by
  have hcoll : samplerNamesForest
      (match collection.varEntries with
       | some vs => addUserDefinedVariables vs "Collection Variables"
       | none => []) = [] := by
    cases collection.varEntries with
    | none => rfl
    | some vs => exact samplerNames_addUDV vs _
  have henv : samplerNamesForest
      (if environmentVars.isEmpty then []
       else addUserDefinedVariables environmentVars "Environment Variables") = [] := by
    split
    · rfl
    · exact samplerNames_addUDV environmentVars _
  have henv2 : samplerNamesForest
      (if environmentVars = [] then []
       else addUserDefinedVariables environmentVars "Environment Variables") = [] := by
    split
    · rfl
    · exact samplerNames_addUDV environmentVars _
  have hitems : samplerNamesForest
      (match collection.items with
       | some items => processItems items
       | none => []) = leafNames (collection.items.getD []) := by
    cases collection.items with
    | none => rfl
    | some items => exact samplerNames_processItems items
  simp [buildDoc, testPlanElem, threadGroupElem, boolProp, stringProp, samplerNamesTree,
    samplerNamesForest, samplerNamesForest_append, hcoll, henv, henv2, hitems]

/-- C3: for every input collection, the output document contains exactly
one sampler element per leaf item carrying a `request` field, in
depth-first pre-order of the input item tree; folders contribute no
element of their own (their children are spliced in place), and a leaf
without a `request` field contributes no output (and, being a total
function of the input, the conversion raises no error on it). -/
theorem c3_flattening_pre_order (collection : Collection) (environmentVars : List Var) :
    samplerNamesTree (buildDoc collection environmentVars)
        = leafNames (collection.items.getD [])
      ∧ (samplerNamesTree (buildDoc collection environmentVars)).length
        = leafRequestCount (collection.items.getD [])
      ∧ (∀ cs rest, processItems (.folder cs :: rest)
          = processItems cs ++ processItems rest)
      ∧ (∀ nm rest, processItems (.leaf nm none :: rest) = processItems rest) := by
  refine ⟨samplerNames_buildDoc collection environmentVars, ?_, fun cs rest => rfl,
    fun nm rest => rfl⟩
  rw [samplerNames_buildDoc collection environmentVars, leafNames_length]

/-! ### Environment block lemmas (claim C5) -/

mutual
theorem processItems_tags :
    ∀ items, ∀ e ∈ processItems items, e.tag = "HTTPSamplerProxy" ∨ e.tag = "hashTree"
  | [], _, h => by cases h
  | i :: rest, e, h => by
    rw [show processItems (i :: rest)
        = processItems.processOneItem i ++ processItems rest from rfl,
      List.mem_append] at h
    cases h with
    | inl h => exact processOneItem_tags i e h
    | inr h => exact processItems_tags rest e h
theorem processOneItem_tags :
    ∀ i, ∀ e ∈ processItems.processOneItem i,
      e.tag = "HTTPSamplerProxy" ∨ e.tag = "hashTree"
  | .folder cs, e, h => processItems_tags cs e h
  | .leaf nm rq, e, h => by
    cases rq with
    | none => cases h
    | some r =>
      simp only [processItems.processOneItem, processLeaf, List.mem_cons,
        List.not_mem_nil, or_false] at h
      rcases h with rfl | rfl
      · exact Or.inl rfl
      · exact Or.inr rfl
end

theorem find?_envBlock_processItems (items : List PMItem) :
    (processItems items).find? isEnvBlock = none := by
  rw [List.find?_eq_none]
  intro x hx
  rcases processItems_tags items x hx with h | h <;>
    simp [isEnvBlock, h]

theorem find?_envBlock_addUDV_collection (vs : List Var) :
    (addUserDefinedVariables vs "Collection Variables").find? isEnvBlock = none := by
  unfold addUserDefinedVariables
  split
  · rfl
  · simp [List.find?, isEnvBlock, lookupAttr, XElem.tag, XElem.attrs, List.lookup,
      hashTreeElem]

theorem filterMap_if_all {α β : Type} (f : α → β) (p : α → Bool) (l : List α)
    (h : ∀ x ∈ l, p x = true) :
    l.filterMap (fun x => if p x then some (f x) else none) = l.map f := by
  induction l with
  | nil => rfl
  | cons x xs ih =>
    rw [List.filterMap_cons, if_pos (h x (List.mem_cons_self x xs)), List.map_cons,
      ih (fun y hy => h y (List.mem_cons_of_mem x hy))]

theorem argPair_varArg (v : Var) :
    (propText (varArg v).children "Argument.name",
     propText (varArg v).children "Argument.value")
      = (v.key.getD "", v.value.getD "") := rfl

/-- C5: for every environment document whose entries carry `key` and
`value` fields (the documented entry shape), exactly the entries whose
`enabled` field is `true` or absent appear in the produced document's
"Environment Variables" block, in source order; entries with `enabled`
false never appear (when no entry survives the filter, no block is
emitted at all). -/
theorem c5_environment_filter (collection : Collection) (values : List Var)
    (h : ∀ v ∈ values, v.key.isSome = true ∧ v.value.isSome = true) :
    envBlockArgs (buildDoc collection (enabledEnvVars ⟨some values⟩))
      = (values.filter (fun v => v.enabled.getD true)).map
          (fun v => (v.key.getD "", v.value.getD "")) := by
  have hcollNone : (match collection.varEntries with
      | some vs => addUserDefinedVariables vs "Collection Variables"
      | none => []).find? isEnvBlock = none := by
    cases collection.varEntries with
    | none => rfl
    | some vs => exact find?_envBlock_addUDV_collection vs
  have hitemsNone : (match collection.items with
      | some items => processItems items
      | none => []).find? isEnvBlock = none := by
    cases collection.items with
    | none => rfl
    | some items => exact find?_envBlock_processItems items
  have hkept : enabledEnvVars ⟨some values⟩
      = values.filter (fun v => v.enabled.getD true) := rfl
  by_cases hemp : (values.filter (fun v => v.enabled.getD true)).isEmpty = true
  · have hnil : values.filter (fun v => v.enabled.getD true) = [] := by
      cases hv : values.filter (fun v => v.enabled.getD true) with
      | nil => rfl
      | cons a l => rw [hv] at hemp; cases hemp
    simp [envBlockArgs, buildDoc, testPlanElem, threadGroupElem, hkept, hnil,
      List.find?_append, hcollNone, hitemsNone, List.find?, XElem.tag, XElem.children]
  · have hfm : (values.filter (fun v => v.enabled.getD true)).filterMap
        (fun v => if v.hasKeyValue then some (varArg v) else none)
        = (values.filter (fun v => v.enabled.getD true)).map varArg := by
      refine filterMap_if_all varArg Var.hasKeyValue _ (fun x hx => ?_)
      have hx' := List.mem_of_mem_filter hx
      have := h x hx'
      simp [Var.hasKeyValue, this.1, this.2]
    have hpair : ∀ l : List Var,
        (l.map varArg).map (fun a =>
          (propText a.children "Argument.name", propText a.children "Argument.value"))
          = l.map (fun v => (v.key.getD "", v.value.getD "")) := by
      intro l
      induction l with
      | nil => rfl
      | cons v vs ih => simp only [List.map_cons, ih, argPair_varArg]
    have henvFind : (addUserDefinedVariables
          (values.filter (fun v => v.enabled.getD true)) "Environment Variables").find?
          isEnvBlock
        = some (.mk "Arguments"
            [("guiclass", "ArgumentsPanel"), ("testclass", "Arguments"),
             ("testname", "Environment Variables"), ("enabled", "true")]
            none
            [.mk "collectionProp" [("name", "Arguments.arguments")] none
              ((values.filter (fun v => v.enabled.getD true)).map varArg)]) := by
      unfold addUserDefinedVariables
      rw [if_neg hemp, hfm]
      simp [List.find?, isEnvBlock, lookupAttr, XElem.attrs, XElem.tag, List.lookup]
    simp [envBlockArgs, buildDoc, hkept, testPlanElem, threadGroupElem, hemp,
      List.find?_append, hcollNone, hitemsNone, henvFind,
      List.find?, XElem.tag, XElem.children, isEnvBlock, lookupAttr, XElem.attrs,
      List.lookup, hashTreeElem, blockArgPairs, hfm, hpair]
    exact fun a _ _ => ⟨rfl, rfl⟩

/-! ### Locating sampler properties (claims C6, C7, C10) -/

theorem find?_isPropNamed_appendToArgs (tg nm : String)
    (hne : ("elementProp" == tg) = false) (args cs : List XElem) :
    (appendToArgsContainer args cs).find? (isPropNamed tg nm)
      = cs.find? (isPropNamed tg nm) := by
  induction cs with
  | nil =>
    simp [appendToArgsContainer, List.find?, isPropNamed, argsContainer, XElem.tag, hne]
  | cons e rest ih =>
    by_cases h : isArgsContainerElem e = true
    · cases e with
      | mk t a tx cs0 =>
        have htag : t = "elementProp" := by
          have h1 := h
          simp only [isArgsContainerElem, XElem.tag, Bool.and_eq_true, beq_iff_eq] at h1
          exact h1.1.1
        have hpred1 : isPropNamed tg nm (.mk t a tx (appendIntoColl args cs0)) = false := by
          simp [isPropNamed, XElem.tag, htag, hne]
        have hpred2 : isPropNamed tg nm (.mk t a tx cs0) = false := by
          simp [isPropNamed, XElem.tag, htag, hne]
        simp only [appendToArgsContainer]
        rw [if_pos h]
        simp only [XElem.tag, XElem.attrs, XElem.text, XElem.children]
        rw [List.find?_cons_of_neg _ (by simp [hpred1]),
          List.find?_cons_of_neg _ (by simp [hpred2])]
    · simp only [appendToArgsContainer]
      rw [if_neg h]
      by_cases hp : isPropNamed tg nm e = true
      · rw [List.find?_cons_of_pos _ hp, List.find?_cons_of_pos _ hp]
      · rw [List.find?_cons_of_neg _ (by simp [hp]),
          List.find?_cons_of_neg _ (by simp [hp]), ih]

theorem find?_stringProp_bodyChildren (b : Option Body) (nm : String) :
    (bodyChildren b).find? (isPropNamed "stringProp" nm) = none := by
  match b with
  | none =>
    simp [bodyChildren, List.find?, isPropNamed, argsContainer, XElem.tag]
  | some b =>
    simp only [bodyChildren]
    split
    · simp [List.find?, isPropNamed, argsContainer, boolProp, XElem.tag]
    · split
      · simp [List.find?, isPropNamed, argsContainer, XElem.tag]
      · simp [List.find?, isPropNamed, argsContainer, XElem.tag]

theorem getProp_samplerChildren_obj (r : Request) (u : StructUrl)
    (hurl : r.url = some (.obj u)) (nm : String)
    (hcm : (commonProps
        ++ [stringProp "HTTPSampler.method" (some (r.method.getD "GET"))]).find?
          (isPropNamed "stringProp" nm) = none) :
    getProp (samplerChildren r) "stringProp" nm
      = getProp (objUrlScalarProps u) "stringProp" nm := by
  have hbase : (bodyChildren r.body ++ commonProps
      ++ [stringProp "HTTPSampler.method" (some (r.method.getD "GET"))]
      ++ objUrlScalarProps u).find? (isPropNamed "stringProp" nm)
      = (objUrlScalarProps u).find? (isPropNamed "stringProp" nm) := by
    rw [List.find?_append, List.find?_append, List.find?_append,
      find?_stringProp_bodyChildren]
    rw [List.find?_append] at hcm
    rcases Option.or_eq_none.mp hcm with ⟨h1, h2⟩
    rw [h1, h2]
    rfl
  simp only [getProp, samplerChildren, hurl]
  by_cases hq : truthyList u.query = true
  · rw [if_pos hq, find?_isPropNamed_appendToArgs "stringProp" nm rfl, hbase]
  · rw [if_neg hq, hbase]

/-- C6: for every request with a structured URL object, the emitted
sampler's domain is the host labels joined by `.` (a single `localhost`
label when host is absent), its path is `/` plus the segments joined by
`/` for a sequence path and the verbatim value for a string path, its
protocol is the given protocol with a trailing colon stripped (default
`http`), and its port is the stringified `port` field (empty when
absent). -/
theorem c6_structured_url_fields (r : Request) (u : StructUrl)
    (hurl : r.url = some (.obj u)) :
    getProp (samplerChildren r) "stringProp" "HTTPSampler.domain"
        = some (some (String.intercalate "." (u.host.getD ["localhost"])))
      ∧ getProp (samplerChildren r) "stringProp" "HTTPSampler.path"
        = some (some (match u.path.getD (.segs []) with
                      | .segs xs => "/" ++ String.intercalate "/" xs
                      | .str s => s))
      ∧ getProp (samplerChildren r) "stringProp" "HTTPSampler.protocol"
        = some (some (stripTrailingColon (u.protocol.getD "http")))
      ∧ getProp (samplerChildren r) "stringProp" "HTTPSampler.port"
        = some (some ((u.port.map PortVal.toStr).getD "")) := by
  refine ⟨?_, ?_, ?_, ?_⟩
  · rw [getProp_samplerChildren_obj r u hurl _ (by
      simp [commonProps, List.find?, isPropNamed, boolProp, stringProp, XElem.tag,
        lookupAttr, XElem.attrs, List.lookup])]
    simp [getProp, objUrlScalarProps, List.find?, isPropNamed, stringProp, XElem.tag,
      lookupAttr, XElem.attrs, List.lookup, XElem.text]
  · rw [getProp_samplerChildren_obj r u hurl _ (by
      simp [commonProps, List.find?, isPropNamed, boolProp, stringProp, XElem.tag,
        lookupAttr, XElem.attrs, List.lookup])]
    simp [getProp, objUrlScalarProps, List.find?, isPropNamed, stringProp, XElem.tag,
      lookupAttr, XElem.attrs, List.lookup, XElem.text]
  · rw [getProp_samplerChildren_obj r u hurl _ (by
      simp [commonProps, List.find?, isPropNamed, boolProp, stringProp, XElem.tag,
        lookupAttr, XElem.attrs, List.lookup])]
    simp [getProp, objUrlScalarProps, List.find?, isPropNamed, stringProp, XElem.tag,
      lookupAttr, XElem.attrs, List.lookup, XElem.text]
  · rw [getProp_samplerChildren_obj r u hurl _ (by
      simp [commonProps, List.find?, isPropNamed, boolProp, stringProp, XElem.tag,
        lookupAttr, XElem.attrs, List.lookup])]
    simp [getProp, objUrlScalarProps, List.find?, isPropNamed, stringProp, XElem.tag,
      lookupAttr, XElem.attrs, List.lookup, XElem.text]

/-! ### Claims C7, C8, C10 -/

theorem countHeaderManager_addUDV (vs : List Var) (nm : String) :
    countTagForest "HeaderManager" (addUserDefinedVariables vs nm) = 0 := by
  unfold addUserDefinedVariables
  split
  · rfl
  · have h1 : noTagForest (fun t => t == "HeaderManager")
        (vs.filterMap (fun v => if v.hasKeyValue then some (varArg v) else none)) = true :=
      noTagForest_mono notContent _ notContent_headerManager _ (contentForest_varArgs vs)
    have h2 := countTagForest_zero_of_noTag "HeaderManager" _ h1
    simp [countTagForest, countTagTree, hashTreeElem, h2]

/-- C7, amended: the claim as stated fails when the URL carries query
parameters (they are merged into the container), so the amended form
adds that condition: a request with no `body` field, no `header`
field, and a URL contributing no query argument yields the sampler
followed by its `hashTree` closer, with exactly one argument container,
present but empty, and no header manager in the sampler's scope. -/
theorem c7_defaults_amended (nm : Option String) (r : Request)
    (hbody : r.body = none) (hheader : r.header = none)
    (hquery : urlQueryFree r.url = true) :
    processLeaf nm (some r)
        = [.mk "HTTPSamplerProxy"
             [("guiclass", "HttpTestSampleGui"), ("testclass", "HTTPSamplerProxy"),
              ("testname", nm.getD "Unnamed Request"), ("enabled", "true")]
             none (samplerChildren r),
           .mk "hashTree" [] none (samplerScopeChildren r)]
      ∧ (argsContainers (samplerChildren r)).map containerIsEmpty = [true]
      ∧ countTagForest "HeaderManager" (samplerScopeChildren r) = 0 := by
  refine ⟨rfl, ?_, ?_⟩
  · cases hu : r.url with
    | none =>
      simp only [samplerChildren, hu, hbody]
      simp [argsContainers, List.filter, bodyChildren, commonProps, argsContainer,
        boolProp, stringProp, XElem.tag, lookupAttr, XElem.attrs, List.lookup,
        containerIsEmpty, containerArgs, isArgsCollectionProp, List.find?, XElem.children]
    | some ud =>
      cases ud with
      | str s =>
        have hq : ((pyUrlparse s).query == "") = true := by
          simpa [urlQueryFree, hu] using hquery
        simp only [samplerChildren, hu, hbody, strUrlChildren, hq]
        simp [argsContainers, List.filter, bodyChildren, commonProps, argsContainer,
          boolProp, stringProp, XElem.tag, lookupAttr, XElem.attrs, List.lookup,
          containerIsEmpty, containerArgs, isArgsCollectionProp, List.find?,
          XElem.children]
      | obj u =>
        have hq : truthyList u.query = false := by
          have hq0 := hquery
          rw [hu] at hq0
          simpa [urlQueryFree] using hq0
        simp only [samplerChildren, hu, hbody, hq]
        simp [argsContainers, List.filter, bodyChildren, commonProps, argsContainer,
          boolProp, stringProp, objUrlScalarProps, XElem.tag, lookupAttr, XElem.attrs,
          List.lookup, containerIsEmpty, containerArgs, isArgsCollectionProp,
          List.find?, XElem.children]
  · unfold samplerScopeChildren
    have hh : truthyList r.header = false := by rw [hheader]; rfl
    rw [if_neg (by simp [hh])]
    cases hu : r.url with
    | none => rfl
    | some ud =>
      cases ud with
      | str s => rfl
      | obj u =>
        show countTagForest "HeaderManager"
          (if truthyList u.variableEntries then
            addUserDefinedVariables (u.variableEntries.getD []) "URL Path Variables"
           else []) = 0
        split
        · exact countHeaderManager_addUDV _ _
        · rfl

/-- C8: a missing or unparseable collection file aborts the conversion
with the corresponding load error, and no output text is produced (the
output file is written only on the success path, after the whole
document is built). -/
theorem c8_fatal_collection_load (environmentFile : Option (JsonFile EnvDoc × String)) :
    convertPostmanToJmx .missing environmentFile = .error .fileNotFound
      ∧ convertPostmanToJmx .malformed environmentFile = .error .jsonDecode
      ∧ writtenOutput (convertPostmanToJmx .missing environmentFile) = none
      ∧ writtenOutput (convertPostmanToJmx .malformed environmentFile) = none :=
  ⟨rfl, rfl, rfl, rfl⟩

/-- C10: a body of mode `raw` whose payload is absent or empty produces
exactly the output of a request with no body at all, and no raw-body
marker is emitted on the sampler. -/
theorem c10_empty_raw_body_equals_no_body (nm : Option String) (r : Request) (b : Body)
    (hbody : r.body = some b) (hmode : b.mode = some "raw")
    (hraw : b.raw = none ∨ b.raw = some "") :
    processLeaf nm (some r) = processLeaf nm (some { r with body := none })
      ∧ (samplerChildren r).find? (isPropNamed "boolProp" "HTTPSampler.postBodyRaw")
          = none := by
  have htr : truthyStr b.raw = false := by
    rcases hraw with h | h <;> simp [truthyStr, h]
  have hbc : bodyChildren r.body = [argsContainer []] := by
    rw [hbody]
    simp [bodyChildren, hmode, htr]
  constructor
  · have hsc : samplerChildren r = samplerChildren { r with body := none } := by
      simp only [samplerChildren, hbc]
      rfl
    have hscope : samplerScopeChildren r
        = samplerScopeChildren { r with body := none } := rfl
    simp [processLeaf, hsc, hscope]
  · cases hu : r.url with
    | none =>
      simp only [samplerChildren, hu, hbc]
      simp [List.find?, isPropNamed, argsContainer, commonProps, boolProp, stringProp,
        XElem.tag, lookupAttr, XElem.attrs, List.lookup]
    | some ud =>
      cases ud with
      | str s =>
        simp only [samplerChildren, hu, hbc, strUrlChildren]
        split
        · simp [List.find?, isPropNamed, argsContainer, commonProps, boolProp,
            stringProp, XElem.tag, lookupAttr, XElem.attrs, List.lookup]
        · simp [List.find?, isPropNamed, argsContainer, commonProps, boolProp,
            stringProp, XElem.tag, lookupAttr, XElem.attrs, List.lookup]
      | obj u =>
        simp only [samplerChildren, hu, hbc]
        by_cases hq : truthyList u.query = true
        · rw [if_pos hq, find?_isPropNamed_appendToArgs "boolProp" _ rfl]
          simp [List.find?, isPropNamed, argsContainer, commonProps, objUrlScalarProps,
            boolProp, stringProp, XElem.tag, lookupAttr, XElem.attrs, List.lookup]
        · rw [if_neg hq]
          simp [List.find?, isPropNamed, argsContainer, commonProps, objUrlScalarProps,
            boolProp, stringProp, XElem.tag, lookupAttr, XElem.attrs, List.lookup]

/-! ### Claims C1, C2, C9: the source evaluated at failing inputs -/

/-- C1 (the code evaluated at a failing input): for a request with no
body whose string URL carries a query string, the source appends the
query arguments into a freshly created second argument container instead
of reusing the one already created for the (absent) body, so the sampler
holds two argument containers - the body one, still empty, and the query
one, holding the parsed parameter. -/
theorem c1_string_url_query_creates_second_container :
    c1Request.body = none
      ∧ (argsContainers (samplerChildren c1Request)).length = 2
      ∧ (argsContainers (samplerChildren c1Request)).map containerIsEmpty
          = [true, false] := by decide

set_option maxRecDepth 40000 in
/-- C2 (the code evaluated at a failing input): a structured URL without
a `port` field gives the port property an empty text, and the serialized
output renders that property as a self-closing element with no text
node, contradicting the required explicit-empty-text form. -/
theorem c2_empty_port_rendered_self_closing :
    getProp (samplerChildren c2Request) "stringProp" "HTTPSampler.port" = some (some "")
      ∧ writtenOutput (convertPostmanToJmx (.parsed c2Collection) none)
          = some (prettyPrint (buildDoc c2Collection []))
      ∧ (linesOf (prettyPrint (buildDoc c2Collection []))).any
          (fun l => strEndsWith l "<stringProp name=\x22HTTPSampler.port\x22/>")
          = true := by
  refine ⟨by decide, rfl, by decide⟩

set_option maxRecDepth 40000 in
/-- C9 (the code evaluated at a failing input): the serialized text is
written to the output file exactly as the pretty-printer produced it,
and for a raw body containing an empty line that text contains a
blank-only line (no stripping pass exists in the source). -/
theorem c9_blank_lines_not_stripped :
    writtenOutput (convertPostmanToJmx (.parsed c9Collection) none)
        = some (prettyPrint (buildDoc c9Collection []))
      ∧ ((linesOf (prettyPrint (buildDoc c9Collection []))).dropLast).any isBlankLine
          = true := by
  refine ⟨rfl, by decide⟩

/-- C7's counterexample: `c7Request` has no `body` and no `header`
field, yet its sampler's single argument container is not empty - the
structured-URL query parameter was merged into it - so the claim "the
emitted sampler contains a present-but-empty argument container" fails
as stated. -/
theorem c7_counterexample_query_fills_container :
    c7Request.body = none
      ∧ c7Request.header = none
      ∧ (argsContainers (samplerChildren c7Request)).map containerIsEmpty
          = [false] := by decide

/-! ### Witnesses -/

/-- Witness for C5, at the specification's environment-filter example. -/
theorem c5_environment_filter_witness :
    (∀ v ∈ ([⟨some "a", some "1", some true⟩, ⟨some "b", some "2", some false⟩,
             ⟨some "c", some "3", some true⟩] : List Var),
        v.key.isSome = true ∧ v.value.isSome = true)
      ∧ envBlockArgs (buildDoc ⟨none, none, none⟩ (enabledEnvVars
          ⟨some [⟨some "a", some "1", some true⟩, ⟨some "b", some "2", some false⟩,
                 ⟨some "c", some "3", some true⟩]⟩))
          = [("a", "1"), ("c", "3")] := by
  constructor
  · decide
  · rw [c5_environment_filter ⟨none, none, none⟩ _ (by decide)]
    decide

/-- Witness for C6, at the specification's structured-URL example. -/
theorem c6_structured_url_fields_witness :
    getProp (samplerChildren c6Request) "stringProp" "HTTPSampler.domain"
        = some (some "example.com")
      ∧ getProp (samplerChildren c6Request) "stringProp" "HTTPSampler.path"
        = some (some "/api/users")
      ∧ getProp (samplerChildren c6Request) "stringProp" "HTTPSampler.protocol"
        = some (some "http")
      ∧ getProp (samplerChildren c6Request) "stringProp" "HTTPSampler.port"
        = some (some "8080") := by
  obtain ⟨h1, h2, h3, h4⟩ := c6_structured_url_fields c6Request c6Url rfl
  refine ⟨?_, ?_, ?_, ?_⟩
  · rw [h1]; decide
  · rw [h2]; decide
  · rw [h3]; decide
  · rw [h4]; decide

/-- Witness for the amended C7, at a request with no body, no header and
no URL. -/
theorem c7_defaults_amended_witness :
    ((⟨none, none, none, none⟩ : Request).body = none)
      ∧ (argsContainers (samplerChildren ⟨none, none, none, none⟩)).map containerIsEmpty
          = [true]
      ∧ countTagForest "HeaderManager" (samplerScopeChildren ⟨none, none, none, none⟩)
          = 0 :=
  ⟨rfl, (c7_defaults_amended (some "w") ⟨none, none, none, none⟩ rfl rfl rfl).2.1,
    (c7_defaults_amended (some "w") ⟨none, none, none, none⟩ rfl rfl rfl).2.2⟩

/-- Witness for C10, at a request whose raw body payload is the empty
string. -/
theorem c10_empty_raw_body_equals_no_body_witness :
    processLeaf (some "w") (some c10Request)
        = processLeaf (some "w") (some { c10Request with body := none })
      ∧ (samplerChildren c10Request).find?
          (isPropNamed "boolProp" "HTTPSampler.postBodyRaw") = none :=
  c10_empty_raw_body_equals_no_body (some "w") c10Request ⟨some "raw", some "", none⟩
    rfl rfl (Or.inr rfl)
